import Mathlib

/-!
# Verification of the ESGF remote data-retrieval subsystem

Shallow embedding of the remote data-retrieval core of the
`climate_experiment` repository:

* `climate_analysis/data_access/esgf_search.py` — catalog search client
  (`_choose_access`, `_parse_docs`, `search_files`);
* `climate_analysis/data_access/esgf_opendap.py` — resumable transfer and
  nearest-point extraction (`_download_with_resume`, `_guess_coords`,
  `open_point_timeseries`);
* `climate_analysis/data_access/esgf_auth.py` — token persistence
  (`_save_tokens`);
* `climate_analysis/data_access/cmip6.py` — deterministic member selection and
  timeseries assembly (`_open_member_timeseries`, `open_all_timeseries`).

Python strings are Lean `String`s; machine-independent integers are `Nat`/`Int`;
fallible paths return `Except String`.  Network responses are modelled by a
standard HTTP server holding the source bytes: a plain GET answers 200 with the
full body, a ranged GET from a valid offset answers 206 with the suffix, and a
ranged GET past the end answers 416.  Timestamps are encoded as natural numbers
`year*10000 + month*100 + day`, which orders exactly like the ISO-8601 strings
the code compares.
-/

namespace ClimateSpec

/-! ## Character-level string splitting

Python's `str.split(sep)` for a one-character separator, implemented by
structural recursion on the character list so that concrete instances reduce
inside the kernel. -/

/-- `split_char sep cs` splits the character list `cs` at every occurrence of
`sep`; like Python `str.split`, it returns one (possibly empty) group more than
the number of separators. -/
def split_char (sep : Char) : List Char → List (List Char)
  | [] => [[]]
  | c :: rest =>
    match split_char sep rest with
    | [] => [[]]
    | g :: gs => if c = sep then [] :: g :: gs else (c :: g) :: gs

/-- Python `s.split(sep)` for a single-character separator. -/
def split_on_char (sep : Char) (s : String) : List String :=
  (split_char sep s.toList).map (fun l => String.mk l)

/-! ## esgf_search.py -/

/-- The raw `url` field of an ESGF response document: the catalog serves it
either as one pipe-delimited string or as a list of such strings. -/
inductive UrlField where
  | scalar (s : String)
  | multi (l : List String)
deriving DecidableEq

/-- Python truthiness of the `url` field (`if url_field`): an empty string and
an empty list are falsy. -/
def url_field_truthy : UrlField → Bool
  | .scalar s => s ≠ ""
  | .multi l => !l.isEmpty

/-- Python `"|".join(...)`. -/
def join_pipe : List String → String
  | [] => ""
  | [s] => s
  | s :: rest => s ++ "|" ++ join_pipe rest

/-- The flat entry list of the `url` field: source lines
`entries = "|".join(url_field).split("|")` (list form) and
`entries = str(url_field).split("|")` (scalar form). -/
def url_entries : UrlField → List String
  | .scalar s => split_on_char '|' s
  | .multi l => split_on_char '|' (join_pipe l)

/-- A catalog field that may arrive as a scalar or as a non-empty sequence
(the source indexes `raw[0]`, so an empty sequence would crash upstream). -/
inductive ScalarOrList where
  | scalar (s : String)
  | listOf (head : String) (tail : List String)
deriving DecidableEq

/-- Source normalization `raw[0] if isinstance(raw, list) else raw`. -/
def normalize_scalar : Option ScalarOrList → Option String
  | none => none
  | some (.scalar s) => some s
  | some (.listOf h _) => some h

/-- `FileAccess` dataclass of `esgf_search.py`. -/
structure FileAccess where
  url : String
  service : String
  mime : String
deriving DecidableEq

/-- `FileRecord` dataclass of `esgf_search.py`. -/
structure FileRecord where
  dataset_id : String
  member_id : Option String
  grid_label : Option String
  datetime_start : Option String
  datetime_stop : Option String
  access : FileAccess
deriving DecidableEq

/-- One entry of `response.docs` in the catalog's JSON payload, restricted to
the fields the parser reads. -/
structure SearchDoc where
  url : Option UrlField
  grid_label : Option ScalarOrList
  member_id : Option ScalarOrList
  dataset_id : Option String
  datetime_start : Option String
  datetime_stop : Option String
deriving DecidableEq

/-- The `_normalize` closure of `_choose_access`: rewrite an insecure scheme to
`https` (`"https://" + url[len("http://"):]`). -/
def normalize_url (url : String) : String :=
  if url.toList.take 7 = "http://".toList then
    String.mk ("https://".toList ++ url.toList.drop 7)
  else url

/-- Source grouping `entries[i:i+3] ...` keeping only complete triples
`(url, mime, service)`. -/
def triple_chunks : List String → List (String × String × String)
  | a :: b :: c :: rest => (a, b, c) :: triple_chunks rest
  | _ => []

/-- The selection loop of `_choose_access`:
`for url, mime, svc in triples: if svc == "HTTPServer": return ...`. -/
def find_http_server : List (String × String × String) →
    Option (String × String × String)
  | [] => none
  | t :: ts => if t.2.2 = "HTTPServer" then some t else find_http_server ts

/-- Build the returned `FileAccess` from a parsed triple. -/
def access_of_triple (t : String × String × String) : FileAccess :=
  { url := normalize_url t.1, service := t.2.2, mime := t.2.1 }

/-- `_choose_access`: pick the first `HTTPServer` triple, else the first
complete triple, else nothing. -/
def choose_access (field : UrlField) : Option FileAccess :=
  match find_http_server (triple_chunks (url_entries field)) with
  | some t => some (access_of_triple t)
  | none =>
    match triple_chunks (url_entries field) with
    | [] => none
    | t :: _ => some (access_of_triple t)

/-- Python `grid_label not in preferred_grid_labels` with an optional label
(`None` is never a member). -/
def opt_mem (o : Option String) (l : List String) : Bool :=
  match o with
  | some s => l.contains s
  | none => false

/-- Per-document body of the `_parse_docs` loop: `None` marks a `continue`. -/
def parse_doc (preferred_grid_labels : List String) (doc : SearchDoc) :
    Option FileRecord :=
  let access := match doc.url with
    | some f => if url_field_truthy f then choose_access f else none
    | none => none
  match access with
  | none => none
  | some acc =>
    let grid_label := normalize_scalar doc.grid_label
    if preferred_grid_labels ≠ [] ∧ opt_mem grid_label preferred_grid_labels = false
    then none
    else
      some { dataset_id := doc.dataset_id.getD ""
             member_id := normalize_scalar doc.member_id
             grid_label := grid_label
             datetime_start := doc.datetime_start
             datetime_stop := doc.datetime_stop
             access := acc }

/-- `_parse_docs(docs, preferred_grid_labels)`. -/
def parse_docs (docs : List SearchDoc) (preferred_grid_labels : List String) :
    List FileRecord :=
  docs.filterMap (parse_doc preferred_grid_labels)

/-- The paging loop of `search_files`.  The remote index is modelled by the
full ordered document list `docs`; a request at `offset` returns the page
`docs[offset : offset + limit]`.  The result pairs the accumulated records
with the number of HTTP requests issued.  Mirrors
`for _ in range(cfg.max_pages): ... if not docs: break ...
records.extend(...); if len(docs) < cfg.limit: break; offset += cfg.limit`. -/
def search_files_go (docs : List SearchDoc) (preferred : List String)
    (limit : Nat) : Nat → Nat → List FileRecord × Nat
  | 0, _ => ([], 0)
  | pages_left + 1, offset =>
    let page := (docs.drop offset).take limit
    if page = [] then ([], 1)
    else if page.length < limit then (parse_docs page preferred, 1)
    else
      let rest := search_files_go docs preferred limit pages_left (offset + limit)
      (parse_docs page preferred ++ rest.1, rest.2 + 1)

/-- `search_files` against a catalog holding `docs`, with the configured page
`limit` and `max_pages`; returns the parsed records and the request count. -/
def search_files (docs : List SearchDoc) (preferred : List String)
    (limit max_pages : Nat) : List FileRecord × Nat :=
  search_files_go docs preferred limit max_pages 0

/-- A single unpaged fetch: every document of the index parsed in one pass. -/
def unpaged_fetch (docs : List SearchDoc) (preferred : List String) :
    List FileRecord :=
  parse_docs docs preferred

/-! ## esgf_opendap.py — `_download_with_resume`

The remote file is the byte list `source`; `local_file` is the current cache
file content (`none` when the destination does not exist); `probe_ok` tells
whether the HEAD probe succeeded, in which case the server reported
`Content-Length = source.length`.  The server follows standard HTTP range
semantics: 200 with the full body for a plain GET, 206 with the suffix for a
ranged GET at a valid offset, 416 past the end. -/

/-- Outcome of one `_download_with_resume` call: the final destination bytes
and how many response-body bytes were transferred. -/
structure TransferResult where
  content : List Nat
  bytes_transferred : Nat
deriving DecidableEq

instance {e a : Type} [DecidableEq e] [DecidableEq a] : DecidableEq (Except e a)
  | .error x, .error y =>
    if h : x = y then .isTrue (congrArg Except.error h)
    else .isFalse (fun hc => h (Except.error.inj hc))
  | .error _, .ok _ => .isFalse (fun hc => Except.noConfusion hc)
  | .ok _, .error _ => .isFalse (fun hc => Except.noConfusion hc)
  | .ok x, .ok y =>
    if h : x = y then .isTrue (congrArg Except.ok h)
    else .isFalse (fun hc => h (Except.ok.inj hc))

/-- Python truthiness of `expected_size` (`None` and `0` are both falsy). -/
def expected_truthy (o : Option Nat) : Prop := o.getD 0 ≠ 0

instance (o : Option Nat) : Decidable (expected_truthy o) :=
  inferInstanceAs (Decidable (o.getD 0 ≠ 0))

/-- `_download_with_resume(src, dest)`. -/
def download_with_resume (source : List Nat) (local_file : Option (List Nat))
    (probe_ok : Bool) : Except String TransferResult :=
  let expected_size : Option Nat := if probe_ok then some source.length else none
  let resume_at : Nat := match local_file with
    | some content => content.length
    | none => 0
  -- `if expected_size and resume_at >= expected_size: return dest`
  if expected_truthy expected_size ∧ expected_size.getD 0 ≤ resume_at then
    .ok { content := local_file.getD [], bytes_transferred := 0 }
  else
    -- `if resume_at > 0: headers["Range"] = f"bytes=resume_at-"`
    let response : Nat × List Nat :=
      if 0 < resume_at then
        if resume_at ≤ source.length then (206, source.drop resume_at)
        else (416, [])
      else (200, source)
    -- `if resp.status_code not in (200, 206): resp.raise_for_status()`
    if response.1 = 200 ∨ response.1 = 206 then
      -- `mode = "ab" if resume_at and resp.status_code == 206 else "wb"`
      let final : List Nat :=
        if resume_at ≠ 0 ∧ response.1 = 206 then local_file.getD [] ++ response.2
        else response.2
      -- `if expected_size and final_size < expected_size: raise IOError(...)`
      if expected_truthy expected_size ∧ final.length < expected_size.getD 0 then
        .error "Incomplete download"
      else
        .ok { content := final, bytes_transferred := response.2.length }
    else .error "HTTP error status"

/-! ## esgf_opendap.py — coordinate lookup and cache path -/

/-- Latitude aliases tried by `_guess_coords`, in order. -/
def lat_aliases : List String := ["lat", "latitude", "nav_lat"]

/-- Longitude aliases tried by `_guess_coords`, in order. -/
def lon_aliases : List String := ["lon", "longitude", "nav_lon"]

/-- `_guess_coords(ds)` over the dataset's coordinate names. -/
def guess_coords (coords : List String) : Except String (String × String) :=
  match lat_aliases.find? (fun n => coords.contains n) with
  | none => .error "Could not find a latitude coordinate in dataset."
  | some lat_name =>
    match lon_aliases.find? (fun n => coords.contains n) with
    | none => .error "Could not find a longitude coordinate in dataset."
    | some lon_name => .ok (lat_name, lon_name)

/-- The selection step of `open_point_timeseries`:
`ds[variable_id].sel(lat=latitude, lon=longitude, method="nearest")`.
xarray resolves the keyword names `lat` and `lon` literally, so the call
succeeds exactly when the dataset has coordinates named `lat` and `lon`. -/
def sel_nearest (coords : List String) : Except String Unit :=
  if coords.contains "lat" && coords.contains "lon" then .ok ()
  else .error "lat is not a valid dimension or coordinate"

/-- Coordinate handling of `open_point_timeseries`: the guessed names are
bound but never used by the subsequent selection, exactly as in the source
(`lat_name, lon_name = _guess_coords(ds)` followed by
`.sel(lat=..., lon=...)`). -/
def open_point_locate (coords : List String) : Except String Unit :=
  match guess_coords coords with
  | .error e => .error e
  | .ok _ => sel_nearest coords

/-- `url.split("?")[0]`. -/
def strip_query (url : String) : String :=
  (split_on_char '?' url).headD ""

/-- `os.path.basename`: the part after the last slash. -/
def url_basename (s : String) : String :=
  (split_on_char '/' s).getLastD ""

/-- The final path segment of a URL after stripping the query string. -/
def final_path_segment (url : String) : String :=
  url_basename (strip_query url)

/-- `filename = os.path.basename(url.split("?")[0]) or "esgf.nc"`. -/
def cache_filename (url : String) : String :=
  if final_path_segment url = "" then "esgf.nc" else final_path_segment url

/-- `local_path = cache_root / filename` with the fixed cache root. -/
def cache_path (url : String) : String :=
  ".cache/esgf/" ++ cache_filename url

/-! ## esgf_auth.py — `_save_tokens`

`_save_tokens` opens the token file with mode `"w"` (which truncates it at
once) and then streams `json.dump(payload, handle)` into it.  The on-disk
states observable during one save are therefore: the previous payload (before
the open), then every prefix of the new serialized payload as the dump
proceeds, ending with the complete new payload. -/

/-- All on-disk states of the token file during one `_save_tokens` call. -/
def save_tokens_states (old_payload new_payload : String) : List String :=
  old_payload ::
    (List.range (new_payload.toList.length + 1)).map
      (fun k => String.mk (new_payload.toList.take k))

/-! ## cmip6.py — member selection and assembly -/

/-- Lexicographic comparison of character lists, Python's string `<=`:
compare code points position by position, a proper leading fragment sorts
first. -/
def chars_le : List Char → List Char → Bool
  | [], _ => true
  | _ :: _, [] => false
  | a :: as, b :: bs =>
    if a < b then true else if b < a then false else chars_le as bs

/-- String order used by Python tuple and `sorted` comparisons. -/
def string_le (a b : String) : Prop := chars_le a.toList b.toList = true

lemma chars_le_total : ∀ as bs : List Char, chars_le as bs = true ∨ chars_le bs as = true := by
  intro as
  induction as with
  | nil => intro bs; left; simp [chars_le]
  | cons a as ih =>
    intro bs
    cases bs with
    | nil => right; simp [chars_le]
    | cons b bs =>
      rcases lt_trichotomy a b with h | h | h
      · left; simp [chars_le, h]
      · subst h
        rcases ih bs with h2 | h2
        · left; simp [chars_le, h2]
        · right; simp [chars_le, h2]
      · right; simp [chars_le, h]

lemma chars_le_trans : ∀ as bs cs : List Char,
    chars_le as bs = true → chars_le bs cs = true → chars_le as cs = true := by
  intro as
  induction as with
  | nil => intro bs cs _ _; simp [chars_le]
  | cons a as ih =>
    intro bs cs h1 h2
    cases bs with
    | nil => simp [chars_le] at h1
    | cons b bs =>
      cases cs with
      | nil => simp [chars_le] at h2
      | cons c cs =>
        rcases lt_trichotomy a b with hab | hab | hab
        · rcases lt_trichotomy b c with hbc | hbc | hbc
          · simp [chars_le, lt_trans hab hbc]
          · subst hbc; simp [chars_le, hab]
          · simp [chars_le, hbc, lt_asymm hbc] at h2
        · subst hab
          rcases lt_trichotomy a c with hac | hac | hac
          · simp [chars_le, hac]
          · subst hac
            simp only [chars_le, lt_irrefl, if_false] at h1 h2 ⊢
            exact ih bs cs h1 h2
          · simp [chars_le, hac, lt_asymm hac] at h2
        · simp [chars_le, hab, lt_asymm hab] at h1

lemma chars_le_antisymm : ∀ as bs : List Char,
    chars_le as bs = true → chars_le bs as = true → as = bs := by
  intro as
  induction as with
  | nil =>
    intro bs _ h2
    cases bs with
    | nil => rfl
    | cons b bs => simp [chars_le] at h2
  | cons a as ih =>
    intro bs h1 h2
    cases bs with
    | nil => simp [chars_le] at h1
    | cons b bs =>
      rcases lt_trichotomy a b with hab | hab | hab
      · simp [chars_le, hab, lt_asymm hab] at h2
      · subst hab
        simp only [chars_le, lt_irrefl, if_false] at h1 h2
        rw [ih bs h1 h2]
      · simp [chars_le, hab, lt_asymm hab] at h1

instance : DecidableRel string_le :=
  fun a b => inferInstanceAs (Decidable (chars_le a.toList b.toList = true))

instance : IsTotal String string_le := ⟨fun a b => chars_le_total a.toList b.toList⟩

instance : IsTrans String string_le :=
  ⟨fun a b c h h2 => chars_le_trans a.toList b.toList c.toList h h2⟩

instance : IsAntisymm String string_le :=
  ⟨fun a b h h2 => String.toList_inj.mp (chars_le_antisymm a.toList b.toList h h2)⟩

/-- The distinct truthy member identifiers of the candidate records:
`{rec.member_id for rec in records if rec.member_id}` (`None` and the empty
string are falsy). -/
def nonempty_member_ids (records : List FileRecord) : List String :=
  (records.filterMap FileRecord.member_id).filter (fun s => s ≠ "")

/-- Member choice of `_open_member_timeseries` when the caller pins no member:
`member_choices = sorted({...}); member = member_choices[0]` with the fallback
`member = records[0].member_id` when the set is empty. -/
def choose_member (records : List FileRecord) : Option String :=
  match List.insertionSort string_le (nonempty_member_ids records).dedup with
  | c :: _ => some c
  | [] =>
    match records with
    | r :: _ => r.member_id
    | [] => none

/-- The member the filter uses: the pinned one, else the deterministic
choice. -/
def chosen_member (member : Option String) (records : List FileRecord) :
    Option String :=
  match member with
  | some m => some m
  | none => choose_member records

/-- `member_records = [rec for rec in records if rec.member_id == member]`. -/
def member_records_of (records : List FileRecord) (member : Option String) :
    List FileRecord :=
  records.filter (fun rec => rec.member_id = chosen_member member records)

/-- The `_sort_key` order of `_open_member_timeseries`: Python compares the
tuples `(0 if svc == "HTTPServer" else 1, datetime_start or "")`
lexicographically. -/
def svc_rank (rec : FileRecord) : Nat :=
  if rec.access.service = "HTTPServer" then 0 else 1

/-- Sort key comparison for the per-member file list. -/
def record_le (a b : FileRecord) : Prop :=
  svc_rank a < svc_rank b ∨
    (svc_rank a = svc_rank b ∧ string_le (a.datetime_start.getD "") (b.datetime_start.getD ""))

instance : DecidableRel record_le :=
  fun a b =>
    inferInstanceAs (Decidable (svc_rank a < svc_rank b ∨
      (svc_rank a = svc_rank b ∧
        string_le (a.datetime_start.getD "") (b.datetime_start.getD ""))))

instance : IsTotal FileRecord record_le := by
  constructor
  intro a b
  rcases Nat.lt_trichotomy (svc_rank a) (svc_rank b) with h | h | h
  · exact Or.inl (Or.inl h)
  · rcases IsTotal.total (r := string_le) (a.datetime_start.getD "") (b.datetime_start.getD "")
      with h2 | h2
    · exact Or.inl (Or.inr ⟨h, h2⟩)
    · exact Or.inr (Or.inr ⟨h.symm, h2⟩)
  · exact Or.inr (Or.inl h)

instance : IsTrans FileRecord record_le := by
  constructor
  intro a b c hab hbc
  rcases hab with h1 | ⟨h1, h1s⟩
  · rcases hbc with h2 | ⟨h2, _⟩
    · exact Or.inl (lt_trans h1 h2)
    · exact Or.inl (h2 ▸ h1)
  · rcases hbc with h2 | ⟨h2, h2s⟩
    · exact Or.inl (h1 ▸ h2)
    · exact Or.inr ⟨h1.trans h2, IsTrans.trans (r := string_le) _ _ _ h1s h2s⟩

/-- Timestamp order used by the final `combined.sortby("time")`. -/
def time_le (p q : Nat × Int) : Prop := p.1 ≤ q.1

instance : DecidableRel time_le :=
  fun p q => inferInstanceAs (Decidable (p.1 ≤ q.1))

instance : IsTotal (Nat × Int) time_le := ⟨fun p q => Nat.le_total p.1 q.1⟩

instance : IsTrans (Nat × Int) time_le := ⟨fun _ _ _ h h2 => le_trans h h2⟩

/-- `f"{start_year}-01-01"` as an encoded timestamp. -/
def time_start_of (year : Nat) : Nat := year * 10000 + 101

/-- `f"{end_year}-12-31"` as an encoded timestamp. -/
def time_end_of (year : Nat) : Nat := year * 10000 + 1231

/-- The per-file point extraction of `open_point_timeseries`: the nearest-point
series stored in the file, sliced to the inclusive requested time window
(`subset.sel(time=slice(time_start, time_end))`). -/
def slice_point (data : List (Nat × Int)) (start_year end_year : Nat) :
    List (Nat × Int) :=
  data.filter (fun p => time_start_of start_year ≤ p.1 ∧ p.1 ≤ time_end_of end_year)

/-- The remote environment a `CMIP6Client` call runs against: the parsed
catalog records per (model, experiment), the nearest-point series held by each
remote file (keyed by access URL), and the configured experiment-name mapping
(`experiments["all"]`, `experiments["scenario"]`). -/
structure ESGFEnv where
  catalog : String → String → List FileRecord
  file_data : String → List (Nat × Int)
  exp_all : String
  exp_scenario : String

/-- File ordering, per-file slicing, concatenation and the final time sort of
`_open_member_timeseries`: `member_records.sort(key=_sort_key)`, the
`open_point_timeseries` loop, `xr.concat(slices, dim="time")`,
`combined.sortby("time")`. -/
def assemble_series (env : ESGFEnv) (member_records : List FileRecord)
    (start_year end_year : Nat) : List (Nat × Int) :=
  List.insertionSort time_le
    (((List.insertionSort record_le member_records).map
      (fun rec => slice_point (env.file_data rec.access.url) start_year end_year)).flatten)

/-- `_open_member_timeseries` over an environment: search, fatal empty result,
member choice, fatal missing member, then assembly. -/
def open_member_timeseries (env : ESGFEnv) (model exp : String)
    (start_year end_year : Nat) (member : Option String) :
    Except String (List (Nat × Int)) :=
  match env.catalog model exp with
  | [] => .error "No ESGF entries"
  | r :: rs =>
    match member_records_of (r :: rs) member with
    | [] => .error "Member not found"
    | mr :: mrs => .ok (assemble_series env (mr :: mrs) start_year end_year)

/-- `open_all_timeseries`: assemble the historical segment and the scenario
segment independently, then `xr.concat([hist, ssp], dim="time")`. -/
def open_all_timeseries (env : ESGFEnv) (model : String) (member : Option String)
    (hist_start_year hist_end_year ssp_end_year : Nat) :
    Except String (List (Nat × Int)) :=
  match open_member_timeseries env model env.exp_all hist_start_year hist_end_year member with
  | .error e => .error e
  | .ok hist =>
    match open_member_timeseries env model env.exp_scenario 2015 ssp_end_year member with
    | .error e => .error e
    | .ok ssp => .ok (hist ++ ssp)

/-! ## Concrete fixtures

Small closed instances used to evaluate the model at concrete inputs. -/

/-- An HTTPServer access for fixture file `f1.nc`. -/
def acc_f1 : FileAccess :=
  { url := "https://h/f1.nc", service := "HTTPServer", mime := "application/netcdf" }

/-- An HTTPServer access for fixture file `f2.nc`. -/
def acc_f2 : FileAccess :=
  { url := "https://h/f2.nc", service := "HTTPServer", mime := "application/netcdf" }

/-- Fixture record for `f1.nc`, member r1. -/
def rec_f1 : FileRecord :=
  { dataset_id := "ds", member_id := some "r1", grid_label := some "gn",
    datetime_start := none, datetime_stop := none, access := acc_f1 }

/-- Fixture record for `f2.nc`, member r1. -/
def rec_f2 : FileRecord :=
  { dataset_id := "ds", member_id := some "r1", grid_label := some "gn",
    datetime_start := none, datetime_stop := none, access := acc_f2 }

/-- Environment whose two catalog files have overlapping time coverage: both
report the timestamp 1951-01-01. -/
def env_overlap : ESGFEnv :=
  { catalog := fun m e => if m = "M" ∧ e = "historical" then [rec_f1, rec_f2] else []
    file_data := fun u =>
      if u = "https://h/f1.nc" then [(19500101, 1), (19510101, 2)]
      else if u = "https://h/f2.nc" then [(19510101, 3), (19520101, 4)]
      else []
    exp_all := "historical"
    exp_scenario := "ssp245" }

/-- Environment with a single two-sample file and no duplicate timestamps. -/
def env_single : ESGFEnv :=
  { catalog := fun m e => if m = "M" ∧ e = "historical" then [rec_f1] else []
    file_data := fun u => if u = "https://h/f1.nc" then [(19500101, 5), (19510101, 6)] else []
    exp_all := "historical"
    exp_scenario := "ssp245" }

/-- Environment where the historical file and the scenario file both report the
boundary timestamp 2015-06-01. -/
def env_boundary : ESGFEnv :=
  { catalog := fun m e =>
      if m = "M" ∧ e = "historical" then
        [{ dataset_id := "ds", member_id := some "r1", grid_label := some "gn",
           datetime_start := none, datetime_stop := none,
           access := { url := "https://h/h.nc", service := "HTTPServer", mime := "x" } }]
      else if m = "M" ∧ e = "ssp245" then
        [{ dataset_id := "ds", member_id := some "r1", grid_label := some "gn",
           datetime_start := none, datetime_stop := none,
           access := { url := "https://h/s.nc", service := "HTTPServer", mime := "x" } }]
      else []
    file_data := fun u =>
      if u = "https://h/h.nc" then [(20150601, 10)]
      else if u = "https://h/s.nc" then [(20150601, 20)]
      else []
    exp_all := "historical"
    exp_scenario := "ssp245" }

/-- Fixture record whose catalog entry carries no `member_id` at all. -/
def rec_member_missing : FileRecord :=
  { dataset_id := "dN", member_id := none, grid_label := none,
    datetime_start := none, datetime_stop := none, access := acc_f1 }

/-- Fixture record whose catalog entry carries an empty-string `member_id`. -/
def rec_member_empty : FileRecord :=
  { dataset_id := "dE", member_id := some "", grid_label := none,
    datetime_start := none, datetime_stop := none, access := acc_f2 }

/-- Fixture record with member r2. -/
def rec_m2 : FileRecord :=
  { dataset_id := "ds", member_id := some "r2", grid_label := some "gn",
    datetime_start := none, datetime_stop := none, access := acc_f2 }

/-- A parseable catalog document for `a.nc`. -/
def doc_a : SearchDoc :=
  { url := some (.scalar "http://h/a.nc|application/netcdf|HTTPServer"),
    grid_label := none, member_id := none, dataset_id := some "ds1",
    datetime_start := none, datetime_stop := none }

/-- A parseable catalog document for `b.nc`. -/
def doc_b : SearchDoc :=
  { url := some (.scalar "http://h/b.nc|application/netcdf|HTTPServer"),
    grid_label := none, member_id := none, dataset_id := some "ds2",
    datetime_start := none, datetime_stop := none }

/-- A document whose url field has no complete (url, mime, service) triple. -/
def doc_no_triple : SearchDoc :=
  { url := some (.scalar "a|b"), grid_label := none, member_id := none,
    dataset_id := none, datetime_start := none, datetime_stop := none }

/-! ## Helper lemmas about the assembly pipeline -/

lemma open_member_ok_inv {env : ESGFEnv} {model exp : String}
    {start_year end_year : Nat} {member : Option String} {result : List (Nat × Int)}
    (h : open_member_timeseries env model exp start_year end_year member = .ok result) :
    ∃ recs : List FileRecord, recs ≠ [] ∧ result = assemble_series env recs start_year end_year := by
  unfold open_member_timeseries at h
  split at h
  · exact Except.noConfusion h
  · split at h
    · exact Except.noConfusion h
    · rename_i mr mrs heq
      injection h with h
      exact ⟨mr :: mrs, by simp, h.symm⟩

lemma assemble_series_mem_window {env : ESGFEnv} {recs : List FileRecord}
    {start_year end_year : Nat} {p : Nat × Int}
    (hp : p ∈ assemble_series env recs start_year end_year) :
    time_start_of start_year ≤ p.1 ∧ p.1 ≤ time_end_of end_year := by
  unfold assemble_series at hp
  rw [List.mem_insertionSort, List.mem_flatten] at hp
  obtain ⟨l, hl, hpl⟩ := hp
  rw [List.mem_map] at hl
  obtain ⟨rec, -, rfl⟩ := hl
  unfold slice_point at hpl
  rw [List.mem_filter] at hpl
  exact of_decide_eq_true hpl.2

lemma open_member_mem_window {env : ESGFEnv} {model exp : String}
    {start_year end_year : Nat} {member : Option String} {result : List (Nat × Int)}
    (h : open_member_timeseries env model exp start_year end_year member = .ok result)
    {p : Nat × Int} (hp : p ∈ result) :
    time_start_of start_year ≤ p.1 ∧ p.1 ≤ time_end_of end_year := by
  obtain ⟨recs, -, rfl⟩ := open_member_ok_inv h
  exact assemble_series_mem_window hp

/-! ## C1 — ordering of an assembled member timeseries -/

/-- C1 (amended): every successfully assembled member timeseries has
non-decreasing timestamps, and it is strictly time-ordered with no duplicate
timestamps whenever the concatenated per-file slices carry no duplicated
timestamp (in particular for adjacent, non-overlapping file coverage).  The
original claim — no duplicates unconditionally, even for overlapping file
coverage — is refuted by `assembled_series_dup_cex`. -/
theorem assembled_series_time_ordered (env : ESGFEnv) (model exp : String)
    (start_year end_year : Nat) (member : Option String) (result : List (Nat × Int))
    (h : open_member_timeseries env model exp start_year end_year member = .ok result) :
    List.Sorted time_le result ∧
      ((result.map Prod.fst).Nodup →
        List.Pairwise (fun p q : Nat × Int => p.1 < q.1) result) := by
  obtain ⟨recs, -, rfl⟩ := open_member_ok_inv h
  constructor
  · exact List.sorted_insertionSort time_le _
  · intro hnd
    have hs : List.Pairwise time_le (assemble_series env recs start_year end_year) :=
      List.sorted_insertionSort time_le _
    have hne : List.Pairwise (fun p q : Nat × Int => p.1 ≠ q.1)
        (assemble_series env recs start_year end_year) := List.pairwise_map.mp hnd
    exact (hs.and hne).imp (fun hpq => lt_of_le_of_ne hpq.1 hpq.2)

/-- Witness for C1: a concrete assembly with distinct timestamps is strictly
time-ordered. -/
theorem assembled_series_time_ordered_witness :
    List.Sorted time_le [(19500101, (5 : Int)), (19510101, 6)] ∧
      (([(19500101, (5 : Int)), (19510101, 6)].map Prod.fst).Nodup →
        List.Pairwise (fun p q : Nat × Int => p.1 < q.1)
          [(19500101, (5 : Int)), (19510101, 6)]) :=
  assembled_series_time_ordered env_single "M" "historical" 1950 2014 (some "r1")
    [(19500101, 5), (19510101, 6)] (by decide)

/-- Counterexample for C1 as stated: two point-extracted file segments with
overlapping coverage (both report 1951-01-01) concatenate to a series with a
duplicate timestamp, not a strictly time-ordered one. -/
theorem assembled_series_dup_cex :
    open_member_timeseries env_overlap "M" "historical" 1950 2014 (some "r1") =
      .ok [(19500101, 1), (19510101, 2), (19510101, 3), (19520101, 4)] ∧
    ¬ List.Pairwise (fun p q : Nat × Int => p.1 < q.1)
        [(19500101, (1 : Int)), (19510101, 2), (19510101, 3), (19520101, 4)] :=
  ⟨by decide, by decide⟩

/-! ## C6 — composite historical + scenario open -/

/-- C6 (amended): `open_all_timeseries` assembles the historical and scenario
segments independently and concatenates them without any deduplication; since
the historical slice is windowed to `hist_end_year-12-31` and the scenario
slice starts at `2015-01-01`, the two segments share no timestamp whenever
`hist_end_year < 2015` (the default), so each boundary-year timestamp occurs at
most once per segment.  The original deduplication claim is refuted by
`open_all_boundary_dup_cex`. -/
theorem open_all_segments_disjoint (env : ESGFEnv) (model : String)
    (member : Option String) (hist_start_year hist_end_year ssp_end_year : Nat)
    (result : List (Nat × Int)) (hb : hist_end_year < 2015)
    (h : open_all_timeseries env model member hist_start_year hist_end_year ssp_end_year =
      .ok result) :
    ∃ hist ssp,
      open_member_timeseries env model env.exp_all hist_start_year hist_end_year member =
        .ok hist ∧
      open_member_timeseries env model env.exp_scenario 2015 ssp_end_year member = .ok ssp ∧
      result = hist ++ ssp ∧
      ∀ t ∈ hist.map Prod.fst, t ∉ ssp.map Prod.fst := by
  unfold open_all_timeseries at h
  split at h
  · exact Except.noConfusion h
  · rename_i hist hhist
    split at h
    · exact Except.noConfusion h
    · rename_i ssp hssp
      injection h with h
      refine ⟨hist, ssp, hhist, hssp, h.symm, ?_⟩
      intro t ht hts
      rw [List.mem_map] at ht hts
      obtain ⟨p, hp, rfl⟩ := ht
      obtain ⟨q, hq, hqt⟩ := hts
      have h1 := (open_member_mem_window hhist hp).2
      have h2 := (open_member_mem_window hssp hq).1
      unfold time_end_of at h1
      unfold time_start_of at h2
      omega

/-- Witness for C6: with the default disjoint windows the two segments of a
concrete composite open share no timestamp. -/
theorem open_all_segments_disjoint_witness :
    ∃ hist ssp,
      open_member_timeseries env_boundary "M" env_boundary.exp_all 1950 2014 (some "r1") =
        .ok hist ∧
      open_member_timeseries env_boundary "M" env_boundary.exp_scenario 2015 2100 (some "r1") =
        .ok ssp ∧
      [(20150601, (20 : Int))] = hist ++ ssp ∧
      ∀ t ∈ hist.map Prod.fst, t ∉ ssp.map Prod.fst :=
  open_all_segments_disjoint env_boundary "M" (some "r1") 1950 2014 2100
    [(20150601, 20)] (by decide) (by decide)

/-- Counterexample for C6 as stated: when both segments report the boundary
timestamp 2015-06-01 (historical windowed through 2015), the composite series
contains it twice — no deduplication happens on the boundary. -/
theorem open_all_boundary_dup_cex :
    open_all_timeseries env_boundary "M" (some "r1") 1950 2015 2100 =
      .ok [(20150601, 10), (20150601, 20)] ∧
    List.count 20150601 ([(20150601, (10 : Int)), (20150601, 20)].map Prod.fst) = 2 :=
  ⟨by decide, by decide⟩

/-! ## C2 — deterministic member selection -/

lemma chars_le_refl : ∀ as : List Char, chars_le as as = true := by
  intro as
  induction as with
  | nil => simp [chars_le]
  | cons a as ih => simp [chars_le, ih]

lemma string_le_refl (s : String) : string_le s s := chars_le_refl s.toList

/-- C2 (amended): when some candidate record carries a non-empty member
identifier, selection returns the lexicographically smallest of the distinct
non-empty identifiers, and it is invariant under reordering of the candidate
records; when no candidate carries a non-empty identifier, selection falls
back to the first record's identifier in catalog order.  Unconditional
order-invariance — the original claim — fails in the fallback case, see
`choose_member_order_dep_cex`. -/
theorem choose_member_spec :
    (∀ records : List FileRecord, ∀ m, m ∈ nonempty_member_ids records →
      ∃ c, choose_member records = some c ∧ c ∈ nonempty_member_ids records ∧
        ∀ m' ∈ nonempty_member_ids records, string_le c m') ∧
    (∀ (r : FileRecord) (rs : List FileRecord),
      nonempty_member_ids (r :: rs) = [] → choose_member (r :: rs) = r.member_id) ∧
    (∀ l₁ l₂ : List FileRecord, l₁.Perm l₂ → nonempty_member_ids l₁ ≠ [] →
      choose_member l₁ = choose_member l₂) := by
  refine ⟨?_, ?_, ?_⟩
  · intro records m hm
    have hdm : m ∈ (nonempty_member_ids records).dedup := List.mem_dedup.mpr hm
    have hms : m ∈ List.insertionSort string_le (nonempty_member_ids records).dedup :=
      (List.mem_insertionSort string_le).mpr hdm
    obtain ⟨c, cs, hc⟩ : ∃ c cs,
        List.insertionSort string_le (nonempty_member_ids records).dedup = c :: cs := by
      cases hsort : List.insertionSort string_le (nonempty_member_ids records).dedup with
      | nil => rw [hsort] at hms; exact absurd hms (List.not_mem_nil m)
      | cons c cs => exact ⟨c, cs, rfl⟩
    refine ⟨c, ?_, ?_, ?_⟩
    · unfold choose_member
      rw [hc]
    · have : c ∈ List.insertionSort string_le (nonempty_member_ids records).dedup := by
        rw [hc]; exact List.mem_cons_self c cs
      exact List.mem_dedup.mp ((List.mem_insertionSort string_le).mp this)
    · intro m' hm'
      have hm's : m' ∈ c :: cs := by
        rw [← hc]
        exact (List.mem_insertionSort string_le).mpr (List.mem_dedup.mpr hm')
      have hsorted : List.Sorted string_le (c :: cs) := by
        rw [← hc]
        exact List.sorted_insertionSort string_le _
      rcases List.mem_cons.mp hm's with rfl | hmem
      · exact string_le_refl m'
      · exact List.rel_of_sorted_cons hsorted m' hmem
  · intro r rs hids
    unfold choose_member
    rw [hids]
    simp [List.dedup_nil]
  · intro l₁ l₂ hperm hne
    have hids : (nonempty_member_ids l₁).Perm (nonempty_member_ids l₂) :=
      (hperm.filterMap FileRecord.member_id).filter _
    have hded : ((nonempty_member_ids l₁).dedup).Perm ((nonempty_member_ids l₂).dedup) :=
      hids.dedup
    have hperm2 : (List.insertionSort string_le (nonempty_member_ids l₁).dedup).Perm
        (List.insertionSort string_le (nonempty_member_ids l₂).dedup) :=
      ((List.perm_insertionSort string_le _).trans hded).trans
        (List.perm_insertionSort string_le _).symm
    have hsame : List.insertionSort string_le (nonempty_member_ids l₁).dedup =
        List.insertionSort string_le (nonempty_member_ids l₂).dedup :=
      List.eq_of_perm_of_sorted (r := string_le) hperm2
        (List.sorted_insertionSort string_le _) (List.sorted_insertionSort string_le _)
    have hne' : (nonempty_member_ids l₁).dedup ≠ [] := by
      intro hnil
      exact hne ((List.dedup_eq_nil _).mp hnil)
    obtain ⟨c, cs, hc⟩ : ∃ c cs,
        List.insertionSort string_le (nonempty_member_ids l₁).dedup = c :: cs := by
      cases hsort : List.insertionSort string_le (nonempty_member_ids l₁).dedup with
      | nil =>
        have hp := List.perm_insertionSort string_le (nonempty_member_ids l₁).dedup
        rw [hsort] at hp
        exact absurd hp.symm.eq_nil hne'
      | cons c cs => exact ⟨c, cs, rfl⟩
    unfold choose_member
    rw [hc, ← hsame, hc]

/-- Witness for C2: on concrete records carrying members r2 and r1, selection
returns a member that is the lexical minimum of the candidate identifiers. -/
theorem choose_member_spec_witness :
    ∃ c, choose_member [rec_m2, rec_f1] = some c ∧
      c ∈ nonempty_member_ids [rec_m2, rec_f1] ∧
      ∀ m' ∈ nonempty_member_ids [rec_m2, rec_f1], string_le c m' :=
  choose_member_spec.1 [rec_m2, rec_f1] "r2" (by decide)

/-- Counterexample for C2 as stated: two orderings of the same unordered
candidate set — one record with a missing member identifier, one with an
empty-string identifier — make the fallback select different identifiers, so
selection is not determined by the unordered record set alone. -/
theorem choose_member_order_dep_cex :
    [rec_member_missing, rec_member_empty].Perm [rec_member_empty, rec_member_missing] ∧
    choose_member [rec_member_missing, rec_member_empty] ≠
      choose_member [rec_member_empty, rec_member_missing] :=
  ⟨by decide, by decide⟩

/-! ## C3 — paginated search vs a single unpaged fetch -/

lemma parse_docs_append (l₁ l₂ : List SearchDoc) (preferred : List String) :
    parse_docs (l₁ ++ l₂) preferred = parse_docs l₁ preferred ++ parse_docs l₂ preferred := by
  simp [parse_docs, List.filterMap_append]

lemma search_files_go_spec (docs : List SearchDoc) (preferred : List String)
    (limit : Nat) :
    ∀ (pages offset : Nat), (docs.drop offset).length ≤ pages * limit →
      (search_files_go docs preferred limit pages offset).1 =
        parse_docs (docs.drop offset) preferred ∧
      (search_files_go docs preferred limit pages offset).2 ≤ pages := by
  intro pages
  induction pages with
  | zero =>
    intro offset h
    have hnil : docs.drop offset = [] := by
      have : (docs.drop offset).length = 0 := Nat.le_zero.mp (by simpa using h)
      exact List.length_eq_zero.mp this
    simp [search_files_go, hnil, parse_docs]
  | succ pages ih =>
    intro offset h
    by_cases hpage : (docs.drop offset).take limit = []
    · have hnil : docs.drop offset = [] := by
        rcases List.take_eq_nil_iff.mp hpage with h0 | h0
        · rw [h0, Nat.mul_zero] at h
          exact List.length_eq_zero.mp (Nat.le_zero.mp h)
        · exact h0
      simp [search_files_go, hpage, hnil, parse_docs]
    · by_cases hshort : ((docs.drop offset).take limit).length < limit
      · have hlen : (docs.drop offset).length < limit := by
          rw [List.length_take] at hshort
          omega
        have htake : (docs.drop offset).take limit = docs.drop offset :=
          List.take_of_length_le (le_of_lt hlen)
        constructor
        · simp only [search_files_go]
          rw [if_neg hpage, if_pos hshort, htake]
        · simp only [search_files_go]
          rw [if_neg hpage, if_pos hshort]
          omega
      · have hdrop : docs.drop (offset + limit) = (docs.drop offset).drop limit := by
          rw [List.drop_drop]
        have hnext : (docs.drop (offset + limit)).length ≤ pages * limit := by
          rw [hdrop, List.length_drop]
          have h2 := h
          rw [Nat.succ_mul] at h2
          omega
        have hrec := ih (offset + limit) hnext
        constructor
        · have hglue : parse_docs ((docs.drop offset).take limit) preferred ++
              parse_docs ((docs.drop offset).drop limit) preferred =
              parse_docs (docs.drop offset) preferred := by
            rw [← parse_docs_append, List.take_append_drop]
          simp only [search_files_go]
          rw [if_neg hpage, if_neg hshort]
          show parse_docs ((docs.drop offset).take limit) preferred ++
              (search_files_go docs preferred limit pages (offset + limit)).1 =
            parse_docs (docs.drop offset) preferred
          rw [hrec.1, hdrop, hglue]
        · simp only [search_files_go]
          rw [if_neg hpage, if_neg hshort]
          show (search_files_go docs preferred limit pages (offset + limit)).2 + 1 ≤ pages + 1
          have := hrec.2
          omega

/-- C3 (amended): whenever the catalog holds at most `max_pages * limit`
documents, paginated search returns exactly the record list a single unpaged
fetch would parse — no duplicates, no omissions — and issues at most
`max_pages` requests.  Unconditionally — that is, for every total record
count, as the original claim has it — the equivalence fails once the total
exceeds the hard page cap, see `search_files_cap_cex`. -/
theorem search_files_unpaged_equiv (docs : List SearchDoc) (preferred : List String)
    (limit max_pages : Nat) (h : docs.length ≤ max_pages * limit) :
    (search_files docs preferred limit max_pages).1 = unpaged_fetch docs preferred ∧
    (search_files docs preferred limit max_pages).2 ≤ max_pages := by
  have := search_files_go_spec docs preferred limit max_pages 0 (by simpa using h)
  simpa [search_files, unpaged_fetch] using this

/-- Witness for C3: two documents, page size 2, page cap 2 — paginated search
equals the unpaged fetch within one request. -/
theorem search_files_unpaged_equiv_witness :
    (search_files [doc_a, doc_b] [] 2 2).1 = unpaged_fetch [doc_a, doc_b] [] ∧
    (search_files [doc_a, doc_b] [] 2 2).2 ≤ 2 :=
  search_files_unpaged_equiv [doc_a, doc_b] [] 2 2 (by decide)

/-- Counterexample for C3 as stated: with page size 1 and page cap 1, a
catalog of two documents makes paginated search return strictly fewer records
than the unpaged fetch (the cap drops the second record). -/
theorem search_files_cap_cex :
    (search_files [doc_a, doc_b] [] 1 1).1 ≠ unpaged_fetch [doc_a, doc_b] [] ∧
    (search_files [doc_a, doc_b] [] 1 1).2 = 1 :=
  ⟨by decide, by decide⟩

/-! ## C4 and C8 — resumable transfer -/

/-- C4 (confirmed): resuming from a partial local file of size `s` — the
leading bytes written by an interrupted transfer — against a source of `T`
bytes with `s < T` produces a final file of exactly the source bytes
(size `T`, transferring the missing `T - s` bytes), byte-identical to a fresh
single-shot download of the same source. -/
theorem download_resume_byte_identical (source : List Nat) (s : Nat)
    (h : s < source.length) :
    download_with_resume source (some (source.take s)) true =
      .ok { content := source, bytes_transferred := source.length - s } ∧
    download_with_resume source none true =
      .ok { content := source, bytes_transferred := source.length } := by
  have hlen : (source.take s).length = s := by
    rw [List.length_take]
    omega
  constructor
  · unfold download_with_resume
    simp only [hlen, Option.getD_some, if_true, expected_truthy]
    rw [if_neg (by omega)]
    by_cases hs : 0 < s
    · rw [if_pos hs, if_pos (le_of_lt h)]
      rw [if_pos (show (206, List.drop s source).1 = 200 ∨ (206, List.drop s source).1 = 206
        from Or.inr rfl)]
      rw [if_pos (show s ≠ 0 ∧ (206, List.drop s source).1 = 206 from ⟨by omega, rfl⟩)]
      rw [List.take_append_drop]
      rw [if_neg (show ¬ (source.length ≠ 0 ∧ source.length < source.length) by omega)]
      simp [List.length_drop]
    · rw [if_neg hs]
      rw [if_pos (show (200, source).1 = 200 ∨ (200, source).1 = 206 from Or.inl rfl)]
      rw [if_neg (show ¬ (s ≠ 0 ∧ (200, source).1 = 206) from fun hc => hc.1 (by omega))]
      rw [if_neg (show ¬ (source.length ≠ 0 ∧ source.length < source.length) by omega)]
      have hs0 : s = 0 := by omega
      rw [hs0]
      simp
  · unfold download_with_resume
    simp only [Option.getD_some, if_true, expected_truthy]
    rw [if_neg (show ¬ (source.length ≠ 0 ∧ source.length ≤ 0) by omega)]
    rw [if_neg (show ¬ (0 < 0) by omega)]
    rw [if_pos (show (200, source).1 = 200 ∨ (200, source).1 = 206 from Or.inl rfl)]
    rw [if_neg (show ¬ ((0 : Nat) ≠ 0 ∧ (200, source).1 = 206) from fun hc => hc.1 rfl)]
    rw [if_neg (show ¬ (source.length ≠ 0 ∧ source.length < source.length) by omega)]

/-- Witness for C4: resuming a 3-byte source from its 1-byte prefix yields the
full source, identical to the fresh download. -/
theorem download_resume_byte_identical_witness :
    download_with_resume [3, 4, 5] (some ([3, 4, 5].take 1)) true =
      .ok { content := [3, 4, 5], bytes_transferred := [3, 4, 5].length - 1 } ∧
    download_with_resume [3, 4, 5] none true =
      .ok { content := [3, 4, 5], bytes_transferred := [3, 4, 5].length } :=
  download_resume_byte_identical [3, 4, 5] 1 (by decide)

/-- C8 (amended): when the local file already exists with size at least the
known expected length and that expected length is positive, the fetch returns
the existing content unchanged and transfers zero body bytes.  The original
claim without the positivity proviso fails: a reported zero expected length is
falsy in Python, the short-circuit is skipped, and the call errors out — see
`download_zero_expected_cex`. -/
theorem download_short_circuit (source local_content : List Nat)
    (hpos : 0 < source.length) (hge : source.length ≤ local_content.length) :
    download_with_resume source (some local_content) true =
      .ok { content := local_content, bytes_transferred := 0 } := by
  unfold download_with_resume
  simp only [Option.getD_some, if_true, expected_truthy]
  rw [if_pos (show source.length ≠ 0 ∧ source.length ≤ local_content.length
    from ⟨by omega, hge⟩)]

/-- Witness for C8: re-fetching a complete 1-byte transfer is a no-op. -/
theorem download_short_circuit_witness :
    download_with_resume [1] (some [1]) true =
      .ok { content := [1], bytes_transferred := 0 } :=
  download_short_circuit [1] [1] (by decide) (by decide)

/-- Counterexample for C8 as stated: local size 1 meets the known expected
length 0, yet the call does not return the existing path — it issues a ranged
request past the end of the zero-length source and fails on the 416 status. -/
theorem download_zero_expected_cex :
    download_with_resume [] (some [7]) true = .error "HTTP error status" ∧
    download_with_resume [] (some [7]) true ≠
      .ok { content := [7], bytes_transferred := 0 } :=
  ⟨by decide, by decide⟩

/-! ## C5 — coordinate-alias handling in point extraction -/

/-- C5 (code bug): `_guess_coords` accepts the alias pair
(`latitude`, `longitude`) — so the documented contract would locate the
nearest grid point — but `open_point_timeseries` never uses the guessed names:
its selection hardcodes the keywords `lat` and `lon`, so a dataset whose
coordinates are named `latitude`/`longitude` fails with a selection error even
though an accepted alias is present.  Only the literal `lat`/`lon` naming
works end to end, and a dataset with no accepted alias fails earlier with the
coordinate-not-found error. -/
theorem alias_coords_selection_bug :
    guess_coords ["time", "latitude", "longitude"] = .ok ("latitude", "longitude") ∧
    open_point_locate ["time", "latitude", "longitude"] =
      .error "lat is not a valid dimension or coordinate" ∧
    open_point_locate ["time", "lat", "lon"] = .ok () ∧
    open_point_locate ["time", "x", "y"] =
      .error "Could not find a latitude coordinate in dataset." :=
  ⟨by decide, by decide, by decide, by decide⟩

/-! ## C7 — token-file persistence -/

/-- C7 (amended): `_save_tokens` creates the parent directory and then
overwrites the token file in place — mode `w` truncates immediately and the
payload streams in — so every on-disk state during a save is either the
complete previous payload or a (possibly empty or partial) leading piece of
the new payload.  The atomic-overwrite reading of the original claim — old
payload or new payload, nothing else — is refuted by
`save_tokens_not_atomic_cex`. -/
theorem save_tokens_append_only (old_payload new_payload s : String)
    (h : s ∈ save_tokens_states old_payload new_payload) :
    s = old_payload ∨ ∃ k, k ≤ new_payload.toList.length ∧
      s = String.mk (new_payload.toList.take k) := by
  unfold save_tokens_states at h
  rcases List.mem_cons.mp h with rfl | h
  · exact Or.inl rfl
  · right
    rw [List.mem_map] at h
    obtain ⟨k, hk, rfl⟩ := h
    rw [List.mem_range] at hk
    exact ⟨k, by omega, rfl⟩

/-- Witness for C7: the mid-write state "NE" of saving payload "NEW" over
"OLD" is a leading piece of the new payload. -/
theorem save_tokens_append_only_witness :
    ("NE" : String) = "OLD" ∨ ∃ k, k ≤ ("NEW" : String).toList.length ∧
      ("NE" : String) = String.mk (("NEW" : String).toList.take k) :=
  save_tokens_append_only "OLD" "NEW" "NE" (by decide)

/-- Counterexample for C7 as stated: right after the truncating open, the
token file is empty — neither the complete previous payload nor the complete
new payload. -/
theorem save_tokens_not_atomic_cex :
    "" ∈ save_tokens_states "OLD" "NEW" ∧
    ("" : String) ≠ "OLD" ∧ ("" : String) ≠ "NEW" := by
  refine ⟨?_, by decide, by decide⟩
  decide

/-! ## C9 — access-triple selection -/

lemma find_http_server_eq_find? (ts : List (String × String × String)) :
    find_http_server ts = ts.find? (fun t => decide (t.2.2 = "HTTPServer")) := by
  induction ts with
  | nil => rfl
  | cons t ts ih =>
    by_cases ht : t.2.2 = "HTTPServer"
    · simp [find_http_server, List.find?, ht]
    · simp [find_http_server, List.find?, ht, ih]

/-- C9 (confirmed): on any access-URL field, `_choose_access` returns the
first complete triple whose transport service is `HTTPServer` when one exists,
else the first complete triple, and nothing exactly when no complete triple
parses; being a pure function of the field, repeated calls agree.  A document
whose field yields no access is discarded by the parser. -/
theorem choose_access_spec :
    (∀ field : UrlField,
      choose_access field =
        (Option.or
          ((triple_chunks (url_entries field)).find? (fun t => decide (t.2.2 = "HTTPServer")))
          (triple_chunks (url_entries field)).head?).map access_of_triple) ∧
    (∀ field : UrlField,
      choose_access field = none ↔ triple_chunks (url_entries field) = []) ∧
    (∀ (preferred : List String) (doc : SearchDoc) (field : UrlField),
      doc.url = some field → choose_access field = none →
      parse_doc preferred doc = none) := by
  have hmain : ∀ field : UrlField,
      choose_access field =
        (Option.or
          ((triple_chunks (url_entries field)).find? (fun t => decide (t.2.2 = "HTTPServer")))
          (triple_chunks (url_entries field)).head?).map access_of_triple := by
    intro field
    unfold choose_access
    rw [find_http_server_eq_find?]
    cases hf : (triple_chunks (url_entries field)).find? (fun t => decide (t.2.2 = "HTTPServer")) with
    | some t => simp [Option.or]
    | none =>
      cases hts : triple_chunks (url_entries field) with
      | nil => simp [Option.or]
      | cons t ts => simp [Option.or]
  refine ⟨hmain, ?_, ?_⟩
  · intro field
    rw [hmain field]
    cases hts : triple_chunks (url_entries field) with
    | nil => simp
    | cons t ts =>
      cases hf : (t :: ts).find? (fun t => decide (t.2.2 = "HTTPServer")) with
      | some u => simp [hf, Option.or]
      | none => simp [hf, Option.or]
  · intro preferred doc field hurl hnone
    unfold parse_doc
    rw [hurl]
    cases htr : url_field_truthy field with
    | false => simp [htr]
    | true => simp [htr, hnone]

/-- Witness for C9: a field whose entries form no complete triple produces no
access, and the parser discards a document carrying it. -/
theorem choose_access_spec_witness :
    parse_doc [] doc_no_triple = none :=
  choose_access_spec.2.2 [] doc_no_triple (.scalar "a|b") rfl (by decide)

/-! ## C10 — cache destination -/

/-- C10 (confirmed): the local cache filename is a function of the final path
segment of the query-stripped URL alone — two URLs with the same final
segment share one cache destination regardless of host or directory — and an
empty final segment falls back to `esgf.nc`. -/
theorem cache_destination_by_segment :
    (∀ u1 u2 : String, final_path_segment u1 = final_path_segment u2 →
      cache_path u1 = cache_path u2) ∧
    (∀ u : String, final_path_segment u = "" → cache_filename u = "esgf.nc") := by
  constructor
  · intro u1 u2 h
    unfold cache_path cache_filename
    rw [h]
  · intro u h
    unfold cache_filename
    rw [if_pos h]

/-- Witness for C10: two URLs differing in scheme, host, directory and query
string but sharing the final segment `f.nc` map to the same cache path. -/
theorem cache_destination_by_segment_witness :
    cache_path "https://hostA/d1/f.nc?download=1" = cache_path "http://hostB/other/f.nc" :=
  cache_destination_by_segment.1 "https://hostA/d1/f.nc?download=1" "http://hostB/other/f.nc"
    (by decide)

end ClimateSpec
